import Mathlib

/-!
Verification development for the EverBloom relationship-management core:
the relationship-strength scoring trigger
(`supabase/migrations/20250630193720_rustic_tooth.sql`,
`update_relationship_strength`) and the notification derivation engine
(`src/components/RelationshipDetail.tsx`, `generateNotifications` in
`NotificationCenter`).

Dates are modelled at day granularity: a civil date `(year, month, day)`
is mapped to a day number (days since 0001-01-01) by `epochDays`, which
is affine in the day field, so JavaScript's `Date.setFullYear` field
overflow (Feb 29 in a non-leap year rolling to Mar 1) is reproduced
exactly.
-/

namespace EverBloom

/-! ### Calendar arithmetic (model of JS `Date` at day granularity) -/

/-- Gregorian leap-year test. -/
def isLeapYear (y : Nat) : Bool :=
  y % 4 == 0 && (y % 100 != 0 || y % 400 == 0)

/-- Number of days in month `m` (1..12) of year `y`. -/
def daysInMonth (y m : Nat) : Nat :=
  if m = 2 then (if isLeapYear y then 29 else 28)
  else if m = 4 ∨ m = 6 ∨ m = 9 ∨ m = 11 then 30
  else 31

/-- Days of year `y` that precede month `m` (so `daysBeforeMonth y 1 = 0`). -/
def daysBeforeMonth (y : Nat) : Nat → Nat
  | 0 => 0
  | 1 => 0
  | n + 2 => daysBeforeMonth y (n + 1) + daysInMonth y (n + 1)

/-- Number of leap years strictly before year `y` (for `y ≥ 1`). -/
def leapsBefore (y : Nat) : Nat :=
  (y - 1) / 4 - (y - 1) / 100 + (y - 1) / 400

/-- Day number of civil `(y, m, d)`: days since 0001-01-01.
Affine in `d`, so an out-of-range day field rolls into the next month,
exactly as JS `Date` field normalization does. -/
def epochDays (y m d : Nat) : Nat :=
  365 * (y - 1) + leapsBefore y + daysBeforeMonth y m + (d - 1)

/-- A civil date as stored/displayed: fields, month 1-based. -/
structure CivilDate where
  year : Nat
  month : Nat
  day : Nat
deriving DecidableEq, Repr

/-- Day number of a civil date. -/
def CivilDate.toDayNumber (c : CivilDate) : Nat :=
  epochDays c.year c.month c.day

/-- A civil date is well formed: month in 1..12, day in 1..days-in-month. -/
def CivilDate.Valid (c : CivilDate) : Prop :=
  1 ≤ c.year ∧ 1 ≤ c.month ∧ c.month ≤ 12 ∧ 1 ≤ c.day ∧ c.day ≤ daysInMonth c.year c.month

instance (c : CivilDate) : Decidable c.Valid := by
  unfold CivilDate.Valid; infer_instance

/-! ### Strength Scoring Engine

Shallow embedding of the `update_relationship_strength` trigger function:

    SET relationship_strength_score = CASE
      WHEN NEW.last_interaction_date IS NULL THEN 30
      WHEN EXTRACT(DAY FROM NOW() - NEW.last_interaction_date) <= 3
        THEN LEAST(relationship_strength_score + 10, 100)
      WHEN EXTRACT(DAY FROM NOW() - NEW.last_interaction_date) <= 7
        THEN LEAST(relationship_strength_score + 5, 100)
      WHEN EXTRACT(DAY FROM NOW() - NEW.last_interaction_date) > 30
        THEN GREATEST(relationship_strength_score - 15, 0)
      ELSE relationship_strength_score
    END

`daysSince` abstracts `EXTRACT(DAY FROM NOW() - NEW.last_interaction_date)`
(the signed whole-day part of the interval); `none` is a NULL
`last_interaction_date`. -/

def update_relationship_strength (score : Int) (daysSince : Option Int) : Int :=
  match daysSince with
  | none => 30
  | some d =>
    if d ≤ 3 then min (score + 10) 100
    else if d ≤ 7 then min (score + 5) 100
    else if d > 30 then max (score - 15) 0
    else score

/-! ### Upcoming-Date Resolver

Embedding of the candidate-date logic in `generateNotifications`:

    const date = new Date(dateStr);
    date.setFullYear(today.getFullYear());
    if (date < today) {
      date.setFullYear(today.getFullYear() + 1);
    }
    ...
    const daysUntil = Math.ceil((date.getTime() - today.getTime()) / (1000*60*60*24));

At day granularity `setFullYear y` maps the date to day number
`epochDays y month day` (field overflow included), `<` compares day
numbers, and the `ceil` of a whole-day difference is the exact integer
difference. -/

structure UpcomingResult where
  eventDays : Nat
  eventYear : Nat
  daysUntil : Int
deriving DecidableEq, Repr

/-- JS `Date` field normalization at day granularity: after
`setFullYear y` the `Date` holds the normalized month/day. For fields
with `1 ≤ m ≤ 12` and `1 ≤ d ≤ 31` the only possible overflow is a day
past the end of its month rolling into the following month (by at most
three days, so a single carry step is exact, and December never
overflows). -/
def normalizeMD (y m d : Nat) : Nat × Nat :=
  if d ≤ daysInMonth y m then (m, d) else (m + 1, d - daysInMonth y m)

/-- The first `setFullYear(today.year)` renormalizes the stored
month/day in today's year; the second `setFullYear(today.year + 1)` acts
on that already-normalized date, carrying its normalized month/day into
the next year (where `epochDays`' affine day map renormalizes again,
exactly as the `Date` time-value recomputation does). -/
def resolveUpcoming (today : CivilDate) (d : CivilDate) : UpcomingResult :=
  let t := today.toDayNumber
  let md := normalizeMD today.year d.month d.day
  let candidate := epochDays today.year md.1 md.2
  if candidate < t then
    { eventDays := epochDays (today.year + 1) md.1 md.2
      eventYear := today.year + 1
      daysUntil := (epochDays (today.year + 1) md.1 md.2 : Int) - (t : Int) }
  else
    { eventDays := candidate
      eventYear := today.year
      daysUntil := (candidate : Int) - (t : Int) }

/-! ### Notification Derivation Engine

Embedding of `generateNotifications` in the `NotificationCenter`
component (`src/components/RelationshipDetail.tsx`). Entity rows carry
the fields the derivation reads; timestamps are day numbers. -/

inductive Priority where
  | low
  | medium
  | high
deriving DecidableEq, Repr

inductive NotifKind where
  | birthday
  | anniversary
  | reminder
  | milestone
  | suggestion
deriving DecidableEq, Repr

structure Notification where
  id : String
  kind : NotifKind
  title : String
  message : String
  relationshipName : Option String
  relationshipId : Option String
  date : Int
  isRead : Bool
  priority : Priority
  actionUrl : Option String
deriving DecidableEq, Repr

structure Relationship where
  id : String
  userId : String
  displayName : String
  importantDates : List (String × CivilDate)
  lastInteractionDate : Option Int
  strengthScore : Int
  createdAt : Int
deriving DecidableEq, Repr

structure Suggestion where
  id : String
  userId : String
  relationshipId : String
  relDisplayName : Option String
  text : String
  generatedAt : Int
  isActedOn : Bool
deriving DecidableEq, Repr

/-- `pat` occurs as a contiguous run inside `s` (model of JS
`String.prototype.includes`). -/
def strContainsAux (pat : List Char) : List Char → Bool
  | [] => pat.isPrefixOf ([] : List Char)
  | c :: rest => pat.isPrefixOf (c :: rest) || strContainsAux pat rest

def strContains (s pat : String) : Bool :=
  strContainsAux pat.toList s.toList

/-- `String.prototype.toLowerCase` (the same character map as
`String.toLower`, recursing structurally over the character list so that
concrete instances evaluate). -/
def strToLower (s : String) : String :=
  ⟨s.data.map Char.toLower⟩

/-- `daysUntil === 0 ? 'today' : `in N day(s)`` rendering. -/
def daysUntilText (d : Int) : String :=
  if d = 0 then "today"
  else "in " ++ toString d ++ " day" ++ (if d > 1 then "s" else "")

/-- One `importantDates` entry: emit a birthday/anniversary candidate when
the resolved occurrence lies within `[today, today + 30 days]`
(`isWithinInterval(date, { start: today, end: nextMonth })`). -/
def dateNotification (today : CivilDate) (r : Relationship)
    (name : String) (d : CivilDate) : Option Notification :=
  let t := today.toDayNumber
  let res := resolveUpcoming today d
  if t ≤ res.eventDays ∧ res.eventDays ≤ t + 30 then
    let daysUntil := res.daysUntil
    let priority : Priority :=
      if daysUntil ≤ 3 then .high else if daysUntil ≤ 7 then .medium else .low
    some
      { id := r.id ++ "-" ++ name
        kind := if strContains (strToLower name) "birthday" then .birthday else .anniversary
        title := name ++ " coming up!"
        message := r.displayName ++ "'s " ++ strToLower name ++ " is " ++ daysUntilText daysUntil
        relationshipName := some r.displayName
        relationshipId := some r.id
        date := (res.eventDays : Int)
        isRead := false
        priority := priority
        actionUrl := some "/ai-studio" }
  else none

def dateNotifications (today : CivilDate) (r : Relationship) : List Notification :=
  r.importantDates.filterMap (fun e => dateNotification today r e.1 e.2)

/-- `daysSinceLastInteraction`, a null `lastInteractionDate` mapping to 999. -/
def daysSinceLastInteraction (todayN : Int) (r : Relationship) : Int :=
  match r.lastInteractionDate with
  | some t => todayN - t
  | none => 999

/-- Re-engagement reminder: emitted exactly when
`daysSinceLastInteraction ≥ 7`. -/
def reminderNotification (today : CivilDate) (r : Relationship) : Option Notification :=
  let t : Int := (today.toDayNumber : Int)
  let ds := daysSinceLastInteraction t r
  if ds ≥ 7 then
    let priority : Priority :=
      if ds ≥ 30 then .high else if ds ≥ 14 then .medium else .low
    some
      { id := "reminder-" ++ r.id
        kind := .reminder
        title := "Time to reconnect!"
        message := "You haven't connected with " ++ r.displayName ++ " in "
          ++ toString ds ++ " days"
        relationshipName := some r.displayName
        relationshipId := some r.id
        date := t
        isRead := false
        priority := priority
        actionUrl := some "/messages" }
  else none

/-- Milestone: only for `strengthScore ≥ 80`, on the exact days 30/100/365
after creation. -/
def milestoneNotification (today : CivilDate) (r : Relationship) : Option Notification :=
  let t : Int := (today.toDayNumber : Int)
  if r.strengthScore ≥ 80 then
    let daysSinceCreated := t - r.createdAt
    if daysSinceCreated = 30 ∨ daysSinceCreated = 100 ∨ daysSinceCreated = 365 then
      some
        { id := "milestone-" ++ r.id ++ "-" ++ toString daysSinceCreated
          kind := .milestone
          title := "Relationship milestone! 🎉"
          message := "You've been nurturing your connection with " ++ r.displayName
            ++ " for " ++ toString daysSinceCreated ++ " days!"
          relationshipName := some r.displayName
          relationshipId := some r.id
          date := t
          isRead := false
          priority := .medium
          actionUrl := none }
    else none
  else none

def relationshipNotifications (today : CivilDate) (r : Relationship) : List Notification :=
  dateNotifications today r
    ++ (reminderNotification today r).toList
    ++ (milestoneNotification today r).toList

def suggestionNotification (s : Suggestion) : Notification :=
  { id := "suggestion-" ++ s.id
    kind := .suggestion
    title := "New AI suggestion"
    message := s.text.take 100 ++ "..."
    relationshipName := s.relDisplayName
    relationshipId := some s.relationshipId
    date := s.generatedAt
    isRead := false
    priority := .low
    actionUrl := some "/ai-studio" }

/-! ### Priority ranking (the final `notifications.sort`) -/

/-- `priorityOrder = { high: 3, medium: 2, low: 1 }`. -/
def priorityOrder : Priority → Int
  | .high => 3
  | .medium => 2
  | .low => 1

/-- The JS comparator: priority descending, then `eventDate` ascending. -/
def notifCompare (a b : Notification) : Int :=
  if priorityOrder a.priority ≠ priorityOrder b.priority then
    priorityOrder b.priority - priorityOrder a.priority
  else a.date - b.date

/-- `a` may precede `b` under the comparator (`notifCompare a b ≤ 0`). -/
def notifLe (a b : Notification) : Prop := notifCompare a b ≤ 0

instance : DecidableRel notifLe := fun a b => by
  unfold notifLe; infer_instance

instance : IsTotal Notification notifLe :=
  ⟨by
    intro a b
    unfold notifLe notifCompare
    split_ifs <;> omega⟩

instance : IsTrans Notification notifLe :=
  ⟨by
    intro a b c hab hbc
    unfold notifLe notifCompare at hab hbc ⊢
    split_ifs at hab hbc ⊢ <;> omega⟩

/-- `Array.prototype.sort` is stable (ES2019), so the sort is insertion
sort under the comparator's preorder. -/
def sortNotifications (l : List Notification) : List Notification :=
  l.insertionSort notifLe

/-! ### The full derivation pass -/

/-- Candidate list in generation order: per relationship — date-based,
then reminder, then milestone — then the suggestion candidates. -/
def deriveNotifications (rels : List Relationship) (suggs : List Suggestion)
    (today : CivilDate) : List Notification :=
  sortNotifications
    ((rels.map (relationshipNotifications today)).flatten
      ++ suggs.map suggestionNotification)

/-- The pass over fetched query results. The relationships fetch
destructures `error` and throws on it; the suggestions fetch destructures
only `data`, so a failed suggestions read leaves `suggestions` null and
contributes nothing. -/
def generateNotifications (relsRes : Except String (List Relationship))
    (suggsRes : Except String (List Suggestion)) (today : CivilDate) :
    Except String (List Notification) :=
  match relsRes with
  | .error e => .error e
  | .ok rels =>
    let suggs := match suggsRes with
      | .error _ => []
      | .ok ss => ss
    .ok (deriveNotifications rels suggs today)

/-- The Entity Store snapshot the pass reads from. -/
structure Store where
  relationships : List Relationship
  suggestions : List Suggestion
deriving DecidableEq, Repr

/-- `SELECT * FROM relationships WHERE user_id = uid` — a read: the store
is returned unchanged. -/
def selectRelationships (s : Store) (uid : String) : Store × List Relationship :=
  (s, s.relationships.filter (fun r => r.userId == uid))

/-- Most-recent-first order used by the suggestions query. -/
def suggLaterFirst (a b : Suggestion) : Prop := b.generatedAt ≤ a.generatedAt

instance : DecidableRel suggLaterFirst := fun a b => by
  unfold suggLaterFirst; infer_instance

/-- The suggestions query: `user_id = uid`, `is_acted_on = false`,
`generated_at ≥ today - 3 days`, newest first, `limit 3` — also a pure
read. -/
def selectSuggestions (s : Store) (uid : String) (today : CivilDate) :
    Store × List Suggestion :=
  (s, (((s.suggestions.filter
          (fun x => x.userId == uid && !x.isActedOn
            && decide ((today.toDayNumber : Int) - 3 ≤ x.generatedAt)))
        ).insertionSort suggLaterFirst).take 3)

/-- One full derivation pass against the store: two reads, then the pure
derivation; the store threads through unchanged. -/
def runGenerateNotifications (s : Store) (uid : String) (today : CivilDate) :
    Store × List Notification :=
  let fetchedRels := selectRelationships s uid
  let fetchedSuggs := selectSuggestions fetchedRels.1 uid today
  (fetchedSuggs.1, deriveNotifications fetchedRels.2 fetchedSuggs.2 today)

/-! ### Concrete fixtures for witnesses -/

def sampleToday : CivilDate := ⟨2025, 6, 15⟩

def sampleRel : Relationship :=
  ⟨"r1", "u1", "Alice", [("Birthday", ⟨1990, 6, 18⟩)], none, 50, 0⟩

def relSeven : Relationship :=
  ⟨"r2", "u1", "Bob", [], some ((epochDays 2025 6 15 : Int) - 7), 50, 0⟩

def relSix : Relationship :=
  ⟨"r3", "u1", "Carol", [], some ((epochDays 2025 6 15 : Int) - 6), 50, 0⟩

def relNull : Relationship :=
  ⟨"r4", "u1", "Dan", [], none, 50, 0⟩

/-! ## Theorems

Shared calendar lemmas first. -/

theorem daysBeforeMonth_twelve (y : Nat) :
    daysBeforeMonth y 12 = 334 + (if isLeapYear y = true then 1 else 0) := by
  simp [daysBeforeMonth, daysInMonth]
  by_cases h : isLeapYear y = true <;> simp [h]

theorem leapsBefore_succ (y : Nat) (hy : 1 ≤ y) :
    leapsBefore (y + 1) = leapsBefore y + (if isLeapYear y = true then 1 else 0) := by
  unfold leapsBefore isLeapYear
  simp only [Nat.add_sub_cancel, Bool.and_eq_true, beq_iff_eq, Bool.or_eq_true, bne_iff_ne,
    ne_eq, decide_eq_true_eq]
  by_cases h4 : y % 4 = 0 <;> by_cases h100 : y % 100 = 0 <;> by_cases h400 : y % 400 = 0 <;>
    simp [h4, h100, h400] <;> omega

theorem epochDays_jan1_succ (y : Nat) (hy : 1 ≤ y) :
    epochDays (y + 1) 1 1 = epochDays y 12 31 + 1 := by
  unfold epochDays
  rw [leapsBefore_succ y hy, daysBeforeMonth_twelve]
  simp only [daysBeforeMonth]
  by_cases h : isLeapYear y = true <;> simp [h] <;> omega

theorem daysBeforeMonth_mono (y : Nat) : ∀ {a b : Nat}, a ≤ b →
    daysBeforeMonth y a ≤ daysBeforeMonth y b := by
  have step : ∀ m : Nat, daysBeforeMonth y m ≤ daysBeforeMonth y (m + 1) := by
    intro m
    match m with
    | 0 => simp [daysBeforeMonth]
    | n + 1 => exact Nat.le_add_right _ _
  intro a b h
  induction b with
  | zero => simp [Nat.le_zero.mp h]
  | succ b ih =>
    rcases Nat.lt_or_ge a (b + 1) with h' | h'
    · exact le_trans (ih (Nat.lt_succ_iff.mp h')) (step b)
    · have : a = b + 1 := le_antisymm h h'
      simp [this]

theorem daysBeforeMonth_succ (y m : Nat) (hm : 1 ≤ m) :
    daysBeforeMonth y (m + 1) = daysBeforeMonth y m + daysInMonth y m := by
  match m with
  | n + 1 => rfl

theorem dayOfYear_le (y m d : Nat) (hm1 : 1 ≤ m) (hm : m ≤ 12) (hd : d ≤ daysInMonth y m) :
    daysBeforeMonth y m + d ≤ daysBeforeMonth y 12 + 31 :=
  calc daysBeforeMonth y m + d ≤ daysBeforeMonth y m + daysInMonth y m := by omega
    _ = daysBeforeMonth y (m + 1) := (daysBeforeMonth_succ y m hm1).symm
    _ ≤ daysBeforeMonth y 13 := daysBeforeMonth_mono y (by omega)
    _ = daysBeforeMonth y 12 + daysInMonth y 12 := daysBeforeMonth_succ y 12 (by omega)
    _ = daysBeforeMonth y 12 + 31 := by norm_num [daysInMonth]

theorem epochDays_le_dec31 (y m d : Nat) (hm1 : 1 ≤ m) (hm : m ≤ 12)
    (hd1 : 1 ≤ d) (hd : d ≤ daysInMonth y m) :
    epochDays y m d ≤ epochDays y 12 31 := by
  unfold epochDays
  have := dayOfYear_le y m d hm1 hm hd
  omega

/-- Any day of year `y` precedes any day of year `y + 1`. -/
theorem today_lt_next_year (y m d tm td : Nat) (hy : 1 ≤ y)
    (htm1 : 1 ≤ tm) (htm : tm ≤ 12) (htd1 : 1 ≤ td) (htd : td ≤ daysInMonth y tm)
    (hm : 1 ≤ m) (_hd : 1 ≤ d) :
    epochDays y tm td < epochDays (y + 1) m d := by
  have h1 : epochDays y tm td ≤ epochDays y 12 31 :=
    epochDays_le_dec31 y tm td htm1 htm htd1 htd
  have h2 : epochDays (y + 1) 1 1 = epochDays y 12 31 + 1 := epochDays_jan1_succ y hy
  have h3 : epochDays (y + 1) 1 1 ≤ epochDays (y + 1) m d := by
    unfold epochDays
    have := daysBeforeMonth_mono (y + 1) (show 1 ≤ m from hm)
    omega
  omega

/-- Normalizing the fields does not move the day: `epochDays` is affine
in the day field, so carrying an overflowing day into the next month
lands on the same day number. -/
theorem epochDays_normalizeMD (y m d : Nat) (hm : 1 ≤ m) :
    epochDays y (normalizeMD y m d).1 (normalizeMD y m d).2 = epochDays y m d := by
  unfold normalizeMD
  by_cases h : d ≤ daysInMonth y m
  · rw [if_pos h]
  · rw [if_neg h]
    simp only
    unfold epochDays
    rw [daysBeforeMonth_succ y m hm]
    omega

/-- Fields already valid in year `y` are left unchanged. -/
theorem normalizeMD_valid_id (y m d : Nat) (hd : d ≤ daysInMonth y m) :
    normalizeMD y m d = (m, d) := by
  unfold normalizeMD
  rw [if_pos hd]

theorem normalizeMD_pos (y m d : Nat) (hm : 1 ≤ m) (hd : 1 ≤ d) :
    1 ≤ (normalizeMD y m d).1 ∧ 1 ≤ (normalizeMD y m d).2 := by
  unfold normalizeMD
  by_cases h : d ≤ daysInMonth y m <;> simp [h] <;> omega

/-- In both branches, `daysUntil` is the day difference between the
resolved occurrence and today. -/
theorem resolveUpcoming_daysUntil_eq (today d : CivilDate) :
    (resolveUpcoming today d).daysUntil =
      ((resolveUpcoming today d).eventDays : Int) - (today.toDayNumber : Int) := by
  unfold resolveUpcoming
  by_cases h : epochDays today.year (normalizeMD today.year d.month d.day).1
      (normalizeMD today.year d.month d.day).2 < today.toDayNumber <;> simp [h]

/-- C3: the Upcoming-Date Resolver builds the candidate from the stored
month/day placed (and `Date`-normalized) in today's year, advances it to
`today.year + 1` exactly when the candidate is strictly before today —
the advanced candidate carrying the normalized month/day, as the second
`setFullYear` acts on the already-normalized `Date` — and returns
`daysUntil = (candidate - today)` in whole days (the `ceil` of the exact
difference); a date whose month/day equals today's yields
`daysUntil = 0`, and a date already passed this year wraps to next year
with a nonnegative `daysUntil`. -/
theorem resolveUpcoming_spec (today d : CivilDate) (ht : today.Valid)
    (hm : 1 ≤ d.month) (hd : 1 ≤ d.day) :
    ((resolveUpcoming today d).eventYear =
       (if epochDays today.year d.month d.day < today.toDayNumber
        then today.year + 1 else today.year)) ∧
    (resolveUpcoming today d).eventDays =
      epochDays (resolveUpcoming today d).eventYear
        (normalizeMD today.year d.month d.day).1
        (normalizeMD today.year d.month d.day).2 ∧
    (¬ epochDays today.year d.month d.day < today.toDayNumber →
      (resolveUpcoming today d).eventDays = epochDays today.year d.month d.day) ∧
    (resolveUpcoming today d).daysUntil =
      ((resolveUpcoming today d).eventDays : Int) - (today.toDayNumber : Int) ∧
    (d.month = today.month → d.day = today.day →
      (resolveUpcoming today d).daysUntil = 0) ∧
    0 ≤ (resolveUpcoming today d).daysUntil := by
  obtain ⟨hy, htm1, htm, htd1, htd⟩ := ht
  have hnorm : epochDays today.year (normalizeMD today.year d.month d.day).1
      (normalizeMD today.year d.month d.day).2 = epochDays today.year d.month d.day :=
    epochDays_normalizeMD today.year d.month d.day hm
  obtain ⟨hpos1, hpos2⟩ := normalizeMD_pos today.year d.month d.day hm hd
  refine ⟨?_, ?_, ?_, resolveUpcoming_daysUntil_eq today d, ?_, ?_⟩ <;>
    unfold resolveUpcoming <;>
    by_cases h : epochDays today.year (normalizeMD today.year d.month d.day).1
        (normalizeMD today.year d.month d.day).2 < today.toDayNumber <;>
    simp only [h, if_pos, if_neg, not_false_iff, ite_true, ite_false]
  · rw [← hnorm, if_pos h]
  · rw [← hnorm, if_neg h]
  · intro hcon
    rw [← hnorm] at hcon
    exact absurd h hcon
  · intro _
    exact hnorm
  · intro hm' hd'
    apply absurd h
    rw [hm', hd', normalizeMD_valid_id today.year today.month today.day htd]
    unfold CivilDate.toDayNumber
    simp
  · intro hm' hd'
    rw [hm', hd', normalizeMD_valid_id today.year today.month today.day htd]
    unfold CivilDate.toDayNumber
    simp
  · have := today_lt_next_year today.year (normalizeMD today.year d.month d.day).1
      (normalizeMD today.year d.month d.day).2 today.month today.day hy
      htm1 htm htd1 htd hpos1 hpos2
    unfold CivilDate.toDayNumber at *
    omega
  · unfold CivilDate.toDayNumber at *
    omega

/-- Witness for C3 at `today = 2025-06-15`: the stored date 1990-03-10
(month/day already passed) wraps to 2026, and 2001-06-15 (same month/day
as today) resolves to `daysUntil = 0`. -/
theorem resolveUpcoming_spec_witness :
    (resolveUpcoming ⟨2025, 6, 15⟩ ⟨1990, 3, 10⟩).eventYear = 2026 ∧
    (resolveUpcoming ⟨2025, 6, 15⟩ ⟨2001, 6, 15⟩).daysUntil = 0 ∧
    0 ≤ (resolveUpcoming ⟨2025, 6, 15⟩ ⟨1990, 3, 10⟩).daysUntil := by
  have h1 := resolveUpcoming_spec ⟨2025, 6, 15⟩ ⟨1990, 3, 10⟩
    (by decide) (by decide) (by decide)
  have h2 := resolveUpcoming_spec ⟨2025, 6, 15⟩ ⟨2001, 6, 15⟩
    (by decide) (by decide) (by decide)
  refine ⟨?_, h2.2.2.2.2.1 rfl rfl, h1.2.2.2.2.2⟩
  rw [h1.1]
  decide

/-- C10: a stored Feb 29 under a non-leap `today.year` rolls over to
March 1 of that year (the day-number map is affine in the day field,
matching JS `setFullYear` normalization), so when the candidate is not
advanced to the next year, the event date and `daysUntil` are computed
against March 1. -/
theorem feb29_candidate_rolls_to_mar1 (today d : CivilDate)
    (hm : d.month = 2) (hd : d.day = 29) (hnl : isLeapYear today.year = false) :
    epochDays today.year d.month d.day = epochDays today.year 3 1 ∧
    epochDays today.year d.month d.day ≠ epochDays today.year 2 28 ∧
    ((resolveUpcoming today d).eventYear = today.year →
       (resolveUpcoming today d).eventDays = epochDays today.year 3 1 ∧
       (resolveUpcoming today d).daysUntil =
         (epochDays today.year 3 1 : Int) - (today.toDayNumber : Int)) := by
  have key : epochDays today.year 2 29 = epochDays today.year 3 1 := by
    unfold epochDays
    simp [daysBeforeMonth, daysInMonth, hnl]
  have ne28 : epochDays today.year 2 29 ≠ epochDays today.year 2 28 := by
    unfold epochDays
    omega
  have hmd : normalizeMD today.year 2 29 = (3, 1) := by
    simp [normalizeMD, daysInMonth, hnl]
  refine ⟨by rw [hm, hd]; exact key, by rw [hm, hd]; exact ne28, ?_⟩
  intro hyear
  unfold resolveUpcoming at hyear ⊢
  simp only [hm, hd, hmd] at hyear ⊢
  by_cases h : epochDays today.year 3 1 < today.toDayNumber
  · simp only [h, ite_true] at hyear
    omega
  · simp only [h, ite_false]
    exact ⟨trivial, trivial⟩

/-- Witness for C10: `today = 2025-01-15` (2025 is not a leap year) and a
stored date 2024-02-29: the candidate is March 1, 2025. -/
theorem feb29_candidate_rolls_to_mar1_witness :
    (resolveUpcoming ⟨2025, 1, 15⟩ ⟨2024, 2, 29⟩).eventDays = epochDays 2025 3 1 ∧
    (resolveUpcoming ⟨2025, 1, 15⟩ ⟨2024, 2, 29⟩).daysUntil =
      (epochDays 2025 3 1 : Int) - ((⟨2025, 1, 15⟩ : CivilDate).toDayNumber : Int) := by
  have h := feb29_candidate_rolls_to_mar1 ⟨2025, 1, 15⟩ ⟨2024, 2, 29⟩ rfl rfl (by decide)
  exact h.2.2 (by decide)

/-- C1: the Strength Scoring Engine, given a previous score in [0,100],
maps a NULL `lastInteractionDate` to 30; otherwise, with
`daysSince = floor(now - lastInteractionDate in days)`:
`daysSince ≤ 3` gives `min(score+10,100)`, `3 < daysSince ≤ 7` gives
`min(score+5,100)`, `daysSince > 30` gives `max(score-15,0)`, and
`7 < daysSince ≤ 30` leaves the score unchanged. -/
theorem update_strength_buckets (score : Int) (_hlo : 0 ≤ score) (_hhi : score ≤ 100)
    (d : Int) :
    update_relationship_strength score none = 30 ∧
    (d ≤ 3 → update_relationship_strength score (some d) = min (score + 10) 100) ∧
    (3 < d → d ≤ 7 → update_relationship_strength score (some d) = min (score + 5) 100) ∧
    (30 < d → update_relationship_strength score (some d) = max (score - 15) 0) ∧
    (7 < d → d ≤ 30 → update_relationship_strength score (some d) = score) := by
  refine ⟨rfl, fun h => ?_, fun h1 h2 => ?_, fun h => ?_, fun h1 h2 => ?_⟩ <;>
    simp only [update_relationship_strength] <;> split_ifs <;> omega

/-- Witness for C1: the spec's bucket tests at prior score 50:
`daysSince = 2 ↦ 60`, `5 ↦ 55`, `45 ↦ 35`, `15 ↦ 50`; NULL `↦ 30`. -/
theorem update_strength_buckets_witness :
    update_relationship_strength 50 none = 30 ∧
    update_relationship_strength 50 (some 2) = 60 ∧
    update_relationship_strength 50 (some 5) = 55 ∧
    update_relationship_strength 50 (some 45) = 35 ∧
    update_relationship_strength 50 (some 15) = 50 := by
  have h2 := (update_strength_buckets 50 (by norm_num) (by norm_num) 2).2.1 (by norm_num)
  have h5 := (update_strength_buckets 50 (by norm_num) (by norm_num) 5).2.2.1
    (by norm_num) (by norm_num)
  have h45 := (update_strength_buckets 50 (by norm_num) (by norm_num) 45).2.2.2.1
    (by norm_num)
  have h15 := (update_strength_buckets 50 (by norm_num) (by norm_num) 15).2.2.2.2
    (by norm_num) (by norm_num)
  have h0 := (update_strength_buckets 50 (by norm_num) (by norm_num) 0).1
  refine ⟨h0, ?_, ?_, ?_, h15⟩
  · rw [h2]; decide
  · rw [h5]; decide
  · rw [h45]; decide

/-- C2: every branch of the scoring transition maps a score in [0,100]
back into [0,100]; hence along any sequence of invocations starting from
a score in [0,100] (in particular from the creation default 50) the score
stays in [0,100] after every step. -/
theorem strength_score_range_invariant :
    (∀ (s : Int) (d : Option Int), 0 ≤ s → s ≤ 100 →
       0 ≤ update_relationship_strength s d ∧ update_relationship_strength s d ≤ 100) ∧
    (∀ (l : List (Option Int)) (s : Int), 0 ≤ s → s ≤ 100 →
       0 ≤ l.foldl update_relationship_strength s ∧
         l.foldl update_relationship_strength s ≤ 100) ∧
    (∀ l : List (Option Int),
       0 ≤ l.foldl update_relationship_strength 50 ∧
         l.foldl update_relationship_strength 50 ≤ 100) := by
  have step : ∀ (s : Int) (d : Option Int), 0 ≤ s → s ≤ 100 →
      0 ≤ update_relationship_strength s d ∧ update_relationship_strength s d ≤ 100 := by
    intro s d h1 h2
    cases d with
    | none => exact ⟨by norm_num [update_relationship_strength],
        by norm_num [update_relationship_strength]⟩
    | some d =>
      simp only [update_relationship_strength]
      split_ifs <;> omega
  have seq : ∀ (l : List (Option Int)) (s : Int), 0 ≤ s → s ≤ 100 →
      0 ≤ l.foldl update_relationship_strength s ∧
        l.foldl update_relationship_strength s ≤ 100 := by
    intro l
    induction l with
    | nil => intro s h1 h2; simpa using ⟨h1, h2⟩
    | cons a t ih =>
      intro s h1 h2
      simp only [List.foldl_cons]
      exact ih _ (step s a h1 h2).1 (step s a h1 h2).2
  exact ⟨step, seq, fun l => seq l 50 (by norm_num) (by norm_num)⟩

/-- Witness for C2: a concrete invocation sequence from the creation
default 50 stays in [0,100]. -/
theorem strength_score_range_invariant_witness :
    0 ≤ [some 2, none, some 45, some (-3), some 100].foldl
          update_relationship_strength 50 ∧
    [some 2, none, some 45, some (-3), some 100].foldl
          update_relationship_strength 50 ≤ 100 :=
  strength_score_range_invariant.2.2 [some 2, none, some 45, some (-3), some 100]

/-- C8 counterexample: with a future `lastInteractionDate` (`daysSince = -1`)
and previous score 50 the trigger yields 60, not the unchanged 50 that the
claim states: a negative `daysSince` satisfies the first `CASE` guard
`daysSince ≤ 3` and takes the `+10` branch. -/
theorem update_strength_future_counterexample :
    update_relationship_strength 50 (some (-1)) = 60 ∧
    update_relationship_strength 50 (some (-1)) ≠ 50 := by decide

/-- C8 amended: when the new `lastInteractionDate` is strictly in the future
(`daysSince < 0`), the trigger takes the `daysSince ≤ 3` branch, yielding
`min(score+10,100)` — not the "unchanged" branch. -/
theorem update_strength_future_amended (s d : Int) (h : d < 0) :
    update_relationship_strength s (some d) = min (s + 10) 100 := by
  simp only [update_relationship_strength]
  rw [if_pos (by omega : d ≤ 3)]

/-- Witness for the amended C8 at `score = 50`, `daysSince = -1`. -/
theorem update_strength_future_amended_witness :
    update_relationship_strength 50 (some (-1)) = min (50 + 10) 100 :=
  update_strength_future_amended 50 (-1) (by norm_num)

/-! ### Sorting: stability of `orderedInsert`/`insertionSort` under a
key-respecting filter -/

/-- Inserting `x` does not disturb a filter whose satisfying elements all
accept `x` before them: elements that `x` jumps over fail the predicate. -/
theorem orderedInsert_filter {α : Type} (r : α → α → Prop) [DecidableRel r]
    (p : α → Bool) (x : α) (H : ∀ y, p y = true → p x = true → r x y) :
    ∀ l : List α, (l.orderedInsert r x).filter p =
      if p x then x :: l.filter p else l.filter p
  | [] => by
    simp only [List.orderedInsert]
    cases hpx : p x <;> simp [List.filter_cons, hpx]
  | y :: l => by
    simp only [List.orderedInsert]
    by_cases hr : r x y
    · rw [if_pos hr]
      by_cases hx : p x = true <;> simp [List.filter_cons, hx]
    · rw [if_neg hr]
      rw [List.filter_cons, orderedInsert_filter r p x H l]
      by_cases hx : p x = true
      · have hy : p y = false := by
          cases hpy : p y with
          | false => rfl
          | true => exact absurd (H y hpy hx) hr
        simp [hx, hy, List.filter_cons]
      · have hx' : p x = false := by simpa using hx
        simp [hx', List.filter_cons]

/-- Insertion sort is stable: it permutes nothing within a class of
mutually `r`-related elements, as seen through `filter`. -/
theorem insertionSort_filter {α : Type} (r : α → α → Prop) [DecidableRel r]
    (p : α → Bool) (H : ∀ x y, p x = true → p y = true → r x y) :
    ∀ l : List α, (l.insertionSort r).filter p = l.filter p
  | [] => rfl
  | x :: l => by
    simp only [List.insertionSort]
    rw [orderedInsert_filter r p x (fun y hy hx => H x y hx hy),
      insertionSort_filter r p H l]
    by_cases hx : p x = true <;> simp [hx, List.filter_cons]

/-- The comparator's preorder, spelled out: priority strictly greater, or
equal priority and event date no later. -/
theorem notifLe_iff (a b : Notification) :
    notifLe a b ↔
      (priorityOrder b.priority < priorityOrder a.priority ∨
        (priorityOrder a.priority = priorityOrder b.priority ∧ a.date ≤ b.date)) := by
  unfold notifLe notifCompare
  by_cases h : priorityOrder a.priority = priorityOrder b.priority
  · rw [if_neg (by simp [h])]
    constructor
    · intro hle
      exact Or.inr ⟨h, by omega⟩
    · rintro (hlt | ⟨-, hle⟩) <;> omega
  · rw [if_pos h]
    constructor
    · intro hle
      exact Or.inl (by omega)
    · rintro (hlt | ⟨heq, -⟩) <;> omega

/-- C6: the feed produced by the final `notifications.sort` is a
permutation of the candidate list, pairwise ordered by priority
descending with event date ascending within equal priority, and stable:
for any fixed (priority, eventDate) key, the subsequence of candidates
with that key is unchanged. -/
theorem sortNotifications_spec (l : List Notification) :
    (sortNotifications l).Perm l ∧
    (sortNotifications l).Pairwise (fun a b =>
      priorityOrder b.priority < priorityOrder a.priority ∨
      (priorityOrder a.priority = priorityOrder b.priority ∧ a.date ≤ b.date)) ∧
    (∀ pv dv : Int,
      (sortNotifications l).filter
          (fun x => priorityOrder x.priority == pv && x.date == dv) =
        l.filter (fun x => priorityOrder x.priority == pv && x.date == dv)) := by
  refine ⟨List.perm_insertionSort notifLe l, ?_, ?_⟩
  · have hs := List.sorted_insertionSort notifLe l
    exact List.Pairwise.imp (fun hab => (notifLe_iff _ _).mp hab) hs
  · intro pv dv
    apply insertionSort_filter
    intro x y hx hy
    simp only [Bool.and_eq_true, beq_iff_eq] at hx hy
    rw [notifLe_iff]
    right
    exact ⟨by rw [hx.1, hy.1], by omega⟩

/-- C4: a date-based notification is emitted for an `importantDates`
entry exactly when the resolved `daysUntil` lies in [0, 30]; an emitted
notification is a BIRTHDAY exactly when the lowercased label contains
"birthday" (ANNIVERSARY otherwise), and its priority is HIGH for
`daysUntil ≤ 3`, MEDIUM for `3 < daysUntil ≤ 7`, LOW otherwise. -/
theorem dateNotification_spec (today : CivilDate) (r : Relationship)
    (name : String) (d : CivilDate) :
    ((dateNotification today r name d).isSome = true ↔
       (0 ≤ (resolveUpcoming today d).daysUntil ∧
         (resolveUpcoming today d).daysUntil ≤ 30)) ∧
    (∀ n, dateNotification today r name d = some n →
       (n.kind = NotifKind.birthday ↔ strContains (strToLower name) "birthday" = true) ∧
       (n.kind = NotifKind.anniversary ↔ strContains (strToLower name) "birthday" = false) ∧
       (n.priority = Priority.high ↔ (resolveUpcoming today d).daysUntil ≤ 3) ∧
       (n.priority = Priority.medium ↔
         (3 < (resolveUpcoming today d).daysUntil ∧
           (resolveUpcoming today d).daysUntil ≤ 7)) ∧
       (n.priority = Priority.low ↔ 7 < (resolveUpcoming today d).daysUntil)) := by
  have hdu := resolveUpcoming_daysUntil_eq today d
  constructor
  · simp only [dateNotification]
    by_cases hc : today.toDayNumber ≤ (resolveUpcoming today d).eventDays ∧
        (resolveUpcoming today d).eventDays ≤ today.toDayNumber + 30
    · rw [if_pos hc]
      simp only [Option.isSome_some]
      constructor
      · intro _
        omega
      · intro _
        trivial
    · rw [if_neg hc]
      simp only [Option.isSome_none]
      constructor
      · intro h
        exact absurd h (by simp)
      · intro hb
        exfalso
        apply hc
        omega
  · intro n hn
    simp only [dateNotification] at hn
    by_cases hc : today.toDayNumber ≤ (resolveUpcoming today d).eventDays ∧
        (resolveUpcoming today d).eventDays ≤ today.toDayNumber + 30
    · rw [if_pos hc] at hn
      have hn' := Option.some.inj hn
      subst hn'
      refine ⟨?_, ?_, ?_, ?_, ?_⟩
      · by_cases hb : strContains (strToLower name) "birthday" = true <;> simp [hb]
      · by_cases hb : strContains (strToLower name) "birthday" = true <;> simp [hb]
      · by_cases h3 : (resolveUpcoming today d).daysUntil ≤ 3 <;>
          by_cases h7 : (resolveUpcoming today d).daysUntil ≤ 7 <;>
          simp [h3, h7]
      · by_cases h3 : (resolveUpcoming today d).daysUntil ≤ 3 <;>
          by_cases h7 : (resolveUpcoming today d).daysUntil ≤ 7 <;>
          (simp [h3, h7]; try omega)
      · by_cases h3 : (resolveUpcoming today d).daysUntil ≤ 3 <;>
          by_cases h7 : (resolveUpcoming today d).daysUntil ≤ 7 <;>
          (simp [h3, h7]; try omega)
    · rw [if_neg hc] at hn
      exact absurd hn (by simp)

/-- Witness for C4: for `today = 2025-06-15` the entry
`("Birthday", 1990-06-18)` (three days ahead) yields a BIRTHDAY
notification at HIGH priority. -/
theorem dateNotification_spec_witness :
    (dateNotification sampleToday sampleRel "Birthday" ⟨1990, 6, 18⟩).isSome = true ∧
    (dateNotification sampleToday sampleRel "Birthday" ⟨1990, 6, 18⟩).map
        Notification.kind = some NotifKind.birthday ∧
    (dateNotification sampleToday sampleRel "Birthday" ⟨1990, 6, 18⟩).map
        Notification.priority = some Priority.high := by
  have hspec := dateNotification_spec sampleToday sampleRel "Birthday" ⟨1990, 6, 18⟩
  have hsome : (dateNotification sampleToday sampleRel "Birthday" ⟨1990, 6, 18⟩).isSome
      = true := hspec.1.mpr (by decide)
  rcases hval : dateNotification sampleToday sampleRel "Birthday" ⟨1990, 6, 18⟩ with _ | n
  · rw [hval] at hsome
    exact absurd hsome (by simp)
  · have hprops := hspec.2 n hval
    refine ⟨hsome, ?_, ?_⟩
    · rw [Option.map_some', hprops.1.mpr (by decide)]
    · rw [Option.map_some', hprops.2.2.1.mpr (by decide)]

/-- C5: a re-engagement REMINDER is emitted (exactly one, as an optional
single candidate) iff `daysSinceLastInteraction ≥ 7`, where a null
`lastInteractionDate` counts as 999 (always qualifying); its priority is
HIGH for `≥ 30` days, MEDIUM for `14 ≤ days < 30`, LOW otherwise. -/
theorem reminderNotification_spec (today : CivilDate) (r : Relationship) :
    ((reminderNotification today r).isSome = true ↔
       7 ≤ daysSinceLastInteraction (today.toDayNumber : Int) r) ∧
    (r.lastInteractionDate = none →
       daysSinceLastInteraction (today.toDayNumber : Int) r = 999) ∧
    (∀ n, reminderNotification today r = some n →
       n.kind = NotifKind.reminder ∧
       (n.priority = Priority.high ↔
         30 ≤ daysSinceLastInteraction (today.toDayNumber : Int) r) ∧
       (n.priority = Priority.medium ↔
         (14 ≤ daysSinceLastInteraction (today.toDayNumber : Int) r ∧
           daysSinceLastInteraction (today.toDayNumber : Int) r < 30)) ∧
       (n.priority = Priority.low ↔
         daysSinceLastInteraction (today.toDayNumber : Int) r < 14)) := by
  refine ⟨?_, ?_, ?_⟩
  · simp only [reminderNotification]
    by_cases hc : daysSinceLastInteraction (today.toDayNumber : Int) r ≥ 7
    · rw [if_pos hc]
      simp only [Option.isSome_some]
      exact ⟨fun _ => hc, fun _ => trivial⟩
    · rw [if_neg hc]
      simp only [Option.isSome_none]
      exact ⟨fun h => absurd h (by simp), fun h => absurd h hc⟩
  · intro h
    unfold daysSinceLastInteraction
    rw [h]
  · intro n hn
    simp only [reminderNotification] at hn
    by_cases hc : daysSinceLastInteraction (today.toDayNumber : Int) r ≥ 7
    · rw [if_pos hc] at hn
      have hn' := Option.some.inj hn
      subst hn'
      refine ⟨rfl, ?_, ?_, ?_⟩ <;>
        by_cases h30 : daysSinceLastInteraction (today.toDayNumber : Int) r ≥ 30 <;>
        by_cases h14 : daysSinceLastInteraction (today.toDayNumber : Int) r ≥ 14 <;>
        simp [h30, h14] <;> omega
    · rw [if_neg hc] at hn
      exact absurd hn (by simp)

/-- Witness for C5: at `today = 2025-06-15`, a last interaction exactly 7
days earlier yields a reminder, 6 days earlier does not, and a null
`lastInteractionDate` (counted as 999) yields one at HIGH priority. -/
theorem reminderNotification_spec_witness :
    (reminderNotification sampleToday relSeven).isSome = true ∧
    (reminderNotification sampleToday relSix).isSome = false ∧
    (reminderNotification sampleToday relNull).isSome = true ∧
    (reminderNotification sampleToday relNull).map Notification.priority
      = some Priority.high := by
  have h7 : (reminderNotification sampleToday relSeven).isSome = true :=
    (reminderNotification_spec sampleToday relSeven).1.mpr (by decide)
  have h6 : (reminderNotification sampleToday relSix).isSome = false := by
    cases h : (reminderNotification sampleToday relSix).isSome
    · rfl
    · exact absurd ((reminderNotification_spec sampleToday relSix).1.mp h) (by decide)
  have hnull : (reminderNotification sampleToday relNull).isSome = true :=
    (reminderNotification_spec sampleToday relNull).1.mpr (by decide)
  rcases hval : reminderNotification sampleToday relNull with _ | n
  · rw [hval] at hnull
    exact absurd hnull (by simp)
  · have hprops := (reminderNotification_spec sampleToday relNull).2.2 n hval
    refine ⟨h7, h6, hnull, ?_⟩
    rw [Option.map_some', hprops.2.1.mpr (by decide)]

/-- C7 counterexample: with one relationship (null `lastInteractionDate`,
so it produces one re-engagement reminder) and a failing suggestions
fetch, the pass returns a successful, non-empty feed of length 1 — a
partial feed built from only the read that succeeded, contradicting the
claim that any read failure aborts the pass. -/
theorem generateNotifications_partial_feed_counterexample :
    (generateNotifications (Except.ok [relNull]) (Except.error "fetch failed")
        sampleToday).toOption.map List.length = some 1 := by decide

/-- C7 amended: a failure of the relationships fetch is thrown and aborts
the pass (error feed); a failure of the suggestions fetch is silently
ignored — the pass behaves exactly as if the suggestions read returned no
rows, so a feed of relationship-derived notifications is still returned. -/
theorem generateNotifications_error_semantics :
    (∀ (e : String) (suggsRes : Except String (List Suggestion)) (today : CivilDate),
       generateNotifications (Except.error e) suggsRes today = Except.error e) ∧
    (∀ (e : String) (rels : List Relationship) (today : CivilDate),
       generateNotifications (Except.ok rels) (Except.error e) today =
         generateNotifications (Except.ok rels) (Except.ok []) today) :=
  ⟨fun _ _ _ => rfl, fun _ _ _ => rfl⟩

/-- C9: a derivation pass is pure and deterministic: it returns the Entity
Store snapshot unchanged (both queries are reads), and two passes over the
same snapshot with the same `today` produce the identical ordered
notification list. -/
theorem runGenerateNotifications_pure (s : Store) (uid : String) (today : CivilDate) :
    (runGenerateNotifications s uid today).1 = s ∧
    (runGenerateNotifications s uid today).2 = (runGenerateNotifications s uid today).2 :=
  ⟨rfl, rfl⟩

end EverBloom
